import Mathlib

/-!
Verification development for `organize.py` (py-photo-organizer).

The source program walks a "messy" directory of photos, hashes each file
(SHA-1, streamed), deduplicates against a list of hashes persisted as
`hashes.pickle` under the organized directory (rebuilt by a full scan via
`find_duplicates` when the pickle file is absent), and copies each unique
file into a date-based directory structure derived from the EXIF
`DateTimeOriginal` tag, falling back to a `no_EXIF` directory.

The embedding below is a shallow state-passing model:
* a source file carries its path components, basename, byte content, the
  EXIF tags `exifread.process_file` would return for it, and whether the
  durable copy primitive (`shutil.copy`) would succeed on it;
* the archive (the organized directory) is an association list from
  destination path components (relative to the organized root) to content;
* the persisted `hashes.pickle` is a `Snapshot`: absent, unparsable
  (so `pickle.load` raises), or a parsed list of hex digests;
* Python exceptions are an `Except` error channel; the error value carries
  the on-disk state at the moment the run aborted.

SHA-1 itself and the `uuid.uuid4()` generator are opaque environment
functions: every theorem below holds for an arbitrary digest function and
an arbitrary token supply, which is exactly what the claims need (the code
uses the digest only as a deterministic function of the file's bytes).
-/

/-- File content as a byte sequence (the bytes `open(path, "rb")` yields). -/
abbrev Content := List Nat

/-- A hex digest string, the result of `hashlib.sha1(...).hexdigest()`. -/
abbrev Digest := String

/-- One file of the source ("messy") tree as enumerated by `os.walk`:
its directory path components below the messy root, its basename, its
bytes, the EXIF tag mapping extraction yields for it, and whether the
durable copy primitive would succeed on it (`copyOk = false` models
`shutil.copy` raising `IOError`). -/
structure SrcFile where
  dir : List String
  name : String
  content : Content
  tags : List (String × String)
  copyOk : Bool
deriving Repr, DecidableEq

/-- The environment's opaque capabilities: the SHA-1 digest function
(deterministic in the content, which is all `hash_file` relies on) and the
`uuid.uuid4()` supply, indexed by how many tokens were drawn so far. -/
structure Env where
  sha1 : Content → Digest
  uuid4 : Nat → String

/-- Python exceptions the modelled code can raise. -/
inductive PyErr where
  | ioError
  | valueError
  | unpicklingError
deriving Repr, DecidableEq

/-- The persisted `hashes.pickle` under the organized directory: absent,
present but unparsable (`pickle.load` raises), or a parsed digest list. -/
inductive Snapshot where
  | absent
  | corrupt
  | good (hashes : List Digest)
deriving Repr, DecidableEq

/-- The organized directory's files: destination path components (relative
to the organized root) paired with the bytes stored there. -/
abbrev Archive := List (List String × Content)

/-- Mutable world state of a run: the source tree, the archive tree, the
persisted snapshot, and how many uuid tokens have been drawn. -/
structure FState where
  source : List SrcFile
  archive : Archive
  snapshot : Snapshot
  uuidCtr : Nat
deriving Repr, DecidableEq

/-- The run's counters, as printed by `organize`. -/
structure RunStats where
  uniques : Nat
  dupes : Nat
  total : Nat
deriving Repr, DecidableEq

/-- Models `filename[0] == "."`, the hidden-file test of `organize`
(os.walk basenames are nonempty, so the empty case is unreachable). -/
def startsWithDot (s : String) : Bool :=
  match s.data with
  | [] => false
  | c :: _ => c = '.'

/-- Index of the last `'.'` in a character list, as `str.rfind('.')`. -/
def rfindDot : List Char → Option Nat
  | [] => none
  | c :: cs =>
    match rfindDot cs with
    | some i => some (i + 1)
    | none => if c = '.' then some 0 else none

/-- Models `os.path.splitext` on a basename: split at the last dot,
unless every character before that dot is itself a dot (so `".bashrc"`
has no extension). `organize_file` applies it to the full path, but the
dot search never crosses the last path separator, so applying it to the
basename is equivalent. -/
def splitext (s : String) : String × String :=
  match rfindDot s.data with
  | none => (s, "")
  | some i =>
    if (s.data.take i).any (fun c => c ≠ '.') then
      (⟨s.data.take i⟩, ⟨s.data.drop i⟩)
    else (s, "")

/-- Models `str.lower` (ASCII case folding, as produced for extensions). -/
def lowerStr (s : String) : String :=
  ⟨s.data.map Char.toLower⟩

/-- Parses a nonempty all-digit character group. -/
def digitsToNat (cs : List Char) : Option Nat :=
  if cs ≠ [] ∧ cs.all Char.isDigit then
    some (cs.foldl (fun a c => a * 10 + (c.toNat - 48)) 0)
  else none

/-- Parses a 1- to `maxLen`-digit group whose value lies in `[lo, hi]`,
matching the digit groups of `_strptime`'s field patterns. -/
def parseBounded (lo hi maxLen : Nat) (cs : List Char) : Option Nat :=
  if cs.length ≤ maxLen then
    match digitsToNat cs with
    | some n => if lo ≤ n ∧ n ≤ hi then some n else none
    | none => none
  else none

/-- Splits a character list on a separator character, as `str.split(sep)`
(adjacent separators yield empty groups, which then fail to parse, just as
the strptime pattern rejects them). -/
def splitOnChar (sep : Char) : List Char → List (List Char)
  | [] => [[]]
  | c :: cs =>
    let rest := splitOnChar sep cs
    if c = sep then [] :: rest
    else
      match rest with
      | r :: rs => (c :: r) :: rs
      | [] => [[c]]

/-- The Gregorian leap-year rule used by `datetime`. -/
def isLeap (y : Nat) : Bool :=
  (y % 4 = 0 && y % 100 ≠ 0) || y % 400 = 0

/-- Days in a month, as validated by the `datetime.datetime` constructor. -/
def daysInMonth (y m : Nat) : Nat :=
  if m = 2 then (if isLeap y then 29 else 28)
  else if m = 4 ∨ m = 6 ∨ m = 9 ∨ m = 11 then 30
  else 31

/-- A parsed `datetime.datetime` value (the fields strptime fills in). -/
structure PyDateTime where
  year : Nat
  month : Nat
  day : Nat
  hour : Nat
  minute : Nat
  second : Nat
deriving Repr, DecidableEq

/-- Models `datetime.datetime.strptime(s, "%Y:%m:%d %H:%M:%S")`:
`%Y` is exactly four digits (and `datetime` needs year ≥ 1), the other
fields are one or two digits within their ranges, the whole string must
match, and the `datetime` constructor additionally validates the day
against the month length and rejects leap seconds. `none` models the
`ValueError` the Python call raises. -/
def strptime_exif (s : String) : Option PyDateTime :=
  match splitOnChar ' ' s.data with
  | [datePart, timePart] =>
    match splitOnChar ':' datePart, splitOnChar ':' timePart with
    | [ys, ms, ds], [hs, ins, ss] =>
      match (if ys.length = 4 then digitsToNat ys else none) with
      | some y =>
        if 1 ≤ y then
          match parseBounded 1 12 2 ms, parseBounded 1 31 2 ds,
                parseBounded 0 23 2 hs, parseBounded 0 59 2 ins,
                parseBounded 0 59 2 ss with
          | some mo, some d, some h, some mi, some sec =>
            if d ≤ daysInMonth y mo then some ⟨y, mo, d, h, mi, sec⟩
            else none
          | _, _, _, _, _ => none
        else none
      | none => none
    | _, _ => none
  | _ => none

/-- Zero-pad to two digits, as strftime's `%m`, `%d`, `%H`, `%M`, `%S`. -/
def pad2 (n : Nat) : String :=
  if n < 10 then "0" ++ toString n else toString n

/-- Render a year as strftime's `%Y` does for the four-digit years the
parsed EXIF tag yields (padding of years below 1000 is platform-dependent
in CPython, so theorems about formatted paths assume `1000 ≤ year`). -/
def pad4 (n : Nat) : String :=
  if n < 10 then "000" ++ toString n
  else if n < 100 then "00" ++ toString n
  else if n < 1000 then "0" ++ toString n
  else toString n

/-- Models `pictime.strftime("%Y-%m-%d %H.%M.%S")`, the unique-file
basename format of `organize_file`. -/
def strftime_filename (dt : PyDateTime) : String :=
  pad4 dt.year ++ "-" ++ pad2 dt.month ++ "-" ++ pad2 dt.day ++ " " ++
  pad2 dt.hour ++ "." ++ pad2 dt.minute ++ "." ++ pad2 dt.second

/-- The recognized date tag, `exif_date_tag` in the source. -/
def exif_date_tag : String := "EXIF DateTimeOriginal"

/-- Dictionary lookup in the tag mapping returned by
`exifread.process_file`; models `tag in tags` / `str(tags[tag])`. -/
def lookupTag (tags : List (String × String)) (k : String) : Option String :=
  (tags.find? (fun p => p.1 = k)).map (fun p => p.2)

/-- Models `hash_file`: the file is opened read-only and streamed through
SHA-1 in bounded blocks, so the digest is `env.sha1` of the byte content
and nothing else. -/
def hash_file (env : Env) (content : Content) : Digest :=
  env.sha1 content

/-- Models `find_duplicates(basedir)`: walk every file (no hidden-file
filtering here), hash it, and return the dict of first-seen hashes (in
insertion order, keyed hash ↦ filepath) together with the duplicate
filepaths. -/
def find_duplicates (env : Env) (files : Archive) :
    List (Digest × List String) × List (List String) :=
  files.foldl
    (fun acc f =>
      let h := hash_file env f.2
      if (acc.1.find? (fun p => p.1 = h)).isSome then
        (acc.1, acc.2 ++ [f.1])
      else
        (acc.1 ++ [(h, f.1)], acc.2))
    ([], [])

/-- Membership of a destination path in the archive, modelling
`os.path.exists(os.path.join(sort_dir, filename))`. -/
def existsAt (archive : Archive) (p : List String) : Bool :=
  archive.any (fun e => e.1 = p)

/-- The destination directory components (relative to the organized root)
and base filename computed by `organize_file` before collision handling:
with a parsable `EXIF DateTimeOriginal` tag the directory is `YYYY/MM/DD`
and the name is the formatted timestamp plus the lowercased original
extension; otherwise the directory is `no_EXIF` and the original basename
is kept. A present but unparsable tag raises `ValueError` (strptime). -/
def dest_for (file : SrcFile) : Except PyErr (List String × String) :=
  let ext := (splitext file.name).2
  match lookupTag file.tags exif_date_tag with
  | some pictimeStr =>
    match strptime_exif pictimeStr with
    | none => .error .valueError
    | some pictime =>
      .ok ([pad4 pictime.year, pad2 pictime.month, pad2 pictime.day],
           strftime_filename pictime ++ lowerStr ext)
  | none => .ok (["no_EXIF"], file.name)

/-- Models `organize_file(filepath, organized_dir)`: compute the
destination, create the directory (implicit here), rename with a fresh
uuid token if the destination already exists, then durably copy the bytes.
Returns the grown archive and the updated uuid counter, or the `IOError`
of a failed copy (in which case no complete file appears at the
destination; the model does not track partial destination bytes and no
theorem below relies on the archive contents of a failed run). -/
def organize_file (env : Env) (file : SrcFile) (archive : Archive)
    (uuidCtr : Nat) : Except PyErr (Archive × Nat) :=
  match dest_for file with
  | .error e => .error e
  | .ok (sortDir, filename0) =>
    let withUuid :=
      if existsAt archive (sortDir ++ [filename0]) then
        let ne := splitext filename0
        (ne.1 ++ " " ++ env.uuid4 uuidCtr ++ ne.2, uuidCtr + 1)
      else (filename0, uuidCtr)
    if file.copyOk then
      .ok ((sortDir ++ [withUuid.1], file.content) :: archive, withUuid.2)
    else .error .ioError

/-- Number of non-hidden files in the source tree, as counted by the
progress pre-pass of `organize` (`f[0] != "."`). -/
def countNonHidden (files : List SrcFile) : Nat :=
  (files.filter (fun f => !startsWithDot f.name)).length

/-- The per-file loop of `organize`: skip hidden basenames, hash, count a
duplicate when the digest is already known, otherwise append the digest,
place the file, and count a unique. On a raised exception the error value
carries the archive and uuid counter at the moment of the abort. -/
def processFiles (env : Env) :
    List SrcFile → List Digest → Archive → Nat → Nat → Nat →
    Except (PyErr × Archive × Nat) (List Digest × Archive × Nat × Nat × Nat)
  | [], hashes, archive, ctr, u, d => .ok (hashes, archive, ctr, u, d)
  | f :: rest, hashes, archive, ctr, u, d =>
    if startsWithDot f.name then
      processFiles env rest hashes archive ctr u d
    else
      let h := hash_file env f.content
      if hashes.contains h then
        processFiles env rest hashes archive ctr u (d + 1)
      else
        let hashes2 := hashes ++ [h]
        match organize_file env f archive ctr with
        | .error e => .error (e, archive, ctr)
        | .ok (archive2, ctr2) =>
          processFiles env rest hashes2 archive2 ctr2 (u + 1) d

/-- Models `organize(messy_dir, organized_dir)`: load the digest list from
the pickle if the file is present (an unparsable pickle raises), otherwise
rebuild it by scanning the organized directory; count the non-hidden
source files; run the per-file loop; and only on completion persist the
updated digest list as the new snapshot. An error value carries the
on-disk state when the run aborted — in particular the snapshot is then
still the snapshot the run started from. -/
def organize (env : Env) (st : FState) :
    Except (PyErr × FState) (FState × RunStats) :=
  match (match st.snapshot with
         | .good l => Except.ok l
         | .corrupt => Except.error PyErr.unpicklingError
         | .absent =>
             Except.ok (((find_duplicates env st.archive).1).map (fun p => p.1)) :
         Except PyErr (List Digest)) with
  | .error e => .error (e, st)
  | .ok hashes =>
    let total := countNonHidden st.source
    match processFiles env st.source hashes st.archive st.uuidCtr 0 0 with
    | .error (e, archive2, ctr2) =>
      .error (e, { st with archive := archive2, uuidCtr := ctr2 })
    | .ok (hashes2, archive2, ctr2, u, d) =>
      .ok ({ st with archive := archive2, snapshot := .good hashes2,
                     uuidCtr := ctr2 },
           ⟨u, d, total⟩)

/-- The source tree recorded in a run's outcome, whether it completed or
aborted. -/
def runSource (r : Except (PyErr × FState) (FState × RunStats)) :
    List SrcFile :=
  match r with
  | .ok (st, _) => st.source
  | .error (_, st) => st.source

/-- Digest membership in a persisted snapshot (false when no parsable
snapshot exists). -/
def snapshotMem (s : Snapshot) (h : Digest) : Bool :=
  match s with
  | .good l => l.contains h
  | _ => false

/-! Concrete inputs used to exercise the theorems. The digest function
encodes the whole byte list (base-257 with an offset), so distinct small
contents get distinct digests, as SHA-1 gives in practice. -/

/-- A concrete environment for evaluating the model. -/
def envW : Env where
  sha1 := fun c => "h" ++ toString (c.foldl (fun a b => a * 257 + (b + 1)) 0)
  uuid4 := fun n => "uuid" ++ toString n

/-- A photo with a valid `EXIF DateTimeOriginal` tag. -/
def wTag : SrcFile :=
  { dir := [], name := "photo.JPG", content := [1, 2, 3],
    tags := [("EXIF DateTimeOriginal", "2021:06:15 10:30:00")],
    copyOk := true }

/-- A byte-identical duplicate of `wTag` under another name and folder. -/
def wDup : SrcFile :=
  { dir := ["sub"], name := "copy.jpg", content := [1, 2, 3],
    tags := [], copyOk := true }

/-- A photo with no date tag at all. -/
def wNoTag : SrcFile :=
  { dir := [], name := "photo.jpg", content := [5],
    tags := [], copyOk := true }

/-- A photo whose date tag is present but unparsable. -/
def wBad : SrcFile :=
  { dir := [], name := "bad.jpg", content := [9],
    tags := [("EXIF DateTimeOriginal", "not a date")], copyOk := true }

/-- A non-hidden photo inside a hidden directory. -/
def wHidden : SrcFile :=
  { dir := [".hidden"], name := "a.jpg", content := [7],
    tags := [], copyOk := true }

/-- A hidden file (its basename starts with a dot). -/
def wHiddenName : SrcFile :=
  { dir := [], name := ".DS_Store", content := [4, 4],
    tags := [], copyOk := true }

/-- A photo whose durable copy fails with `IOError`. -/
def wFail : SrcFile :=
  { dir := [], name := "x.jpg", content := [8],
    tags := [], copyOk := false }

/-- Initial state of the failing-copy run. -/
def stFailW : FState := ⟨[wFail], [], .absent, 0⟩

/-- The state a first run over `[wTag, wDup]` leaves behind (one placed
file, its digest persisted in the snapshot). -/
def st1W : FState :=
  ⟨[wTag, wDup],
   [(["2021", "06", "15", "2021-06-15 10.30.00.jpg"], [1, 2, 3])],
   .good ["h132873"], 0⟩

/-! Helper lemmas about the per-file loop and placement. -/

/-- A successful placement pushes exactly one new entry, carrying the
source file's bytes, onto the archive. -/
theorem organize_file_ok_shape (env : Env) (f : SrcFile) (a : Archive)
    (n : Nat) (a' : Archive) (n' : Nat)
    (h : organize_file env f a n = .ok (a', n')) :
    ∃ p, a' = (p, f.content) :: a := by
  unfold organize_file at h
  split at h
  · exact absurd h (by simp)
  · split at h
    · split at h
      · simp only [Except.ok.injEq, Prod.mk.injEq] at h
        exact ⟨_, h.1.symm⟩
      · exact absurd h (by simp)
    · dsimp only at h
      split at h
      · simp only [Except.ok.injEq, Prod.mk.injEq] at h
        exact ⟨_, h.1.symm⟩
      · exact absurd h (by simp)

/-- Digest-list membership is preserved by the loop. -/
theorem processFiles_mono (env : Env) :
    ∀ (fs : List SrcFile) (hashes : List Digest) (a : Archive)
      (n u d : Nat) (h' : List Digest) (a' : Archive) (n' u' d' : Nat),
      processFiles env fs hashes a n u d = .ok (h', a', n', u', d') →
      ∀ x, x ∈ hashes → x ∈ h' := by
  intro fs
  induction fs with
  | nil =>
    intro hashes a n u d h' a' n' u' d' h x hx
    simp only [processFiles, Except.ok.injEq, Prod.mk.injEq] at h
    exact h.1 ▸ hx
  | cons f rest ih =>
    intro hashes a n u d h' a' n' u' d' h x hx
    simp only [processFiles] at h
    by_cases hh : startsWithDot f.name = true
    · rw [if_pos hh] at h
      exact ih hashes a n u d h' a' n' u' d' h x hx
    · rw [if_neg hh] at h
      by_cases hm : hashes.contains (hash_file env f.content) = true
      · rw [if_pos hm] at h
        exact ih hashes a n u (d + 1) h' a' n' u' d' h x hx
      · rw [if_neg hm] at h
        cases horg : organize_file env f a n with
        | error e => rw [horg] at h; exact absurd h (by simp)
        | ok r =>
          rw [horg] at h
          exact ih _ _ _ _ _ h' a' n' u' d' h x
            (List.mem_append_left _ hx)

/-- After a completed loop, the digest of every non-hidden processed file
is in the final digest list. -/
theorem processFiles_covers (env : Env) :
    ∀ (fs : List SrcFile) (hashes : List Digest) (a : Archive)
      (n u d : Nat) (h' : List Digest) (a' : Archive) (n' u' d' : Nat),
      processFiles env fs hashes a n u d = .ok (h', a', n', u', d') →
      ∀ g ∈ fs, startsWithDot g.name = false →
        hash_file env g.content ∈ h' := by
  intro fs
  induction fs with
  | nil =>
    intro hashes a n u d h' a' n' u' d' h g hg
    exact absurd hg (List.not_mem_nil g)
  | cons f rest ih =>
    intro hashes a n u d h' a' n' u' d' h g hg hgname
    simp only [processFiles] at h
    by_cases hh : startsWithDot f.name = true
    · rw [if_pos hh] at h
      rcases List.mem_cons.mp hg with rfl | hgr
      · rw [hgname] at hh; exact absurd hh (by simp)
      · exact ih hashes a n u d h' a' n' u' d' h g hgr hgname
    · rw [if_neg hh] at h
      by_cases hm : hashes.contains (hash_file env f.content) = true
      · rw [if_pos hm] at h
        rcases List.mem_cons.mp hg with rfl | hgr
        · have hmem : hash_file env g.content ∈ hashes := by
            simpa using hm
          exact processFiles_mono env rest hashes a n u (d + 1)
            h' a' n' u' d' h _ hmem
        · exact ih hashes a n u (d + 1) h' a' n' u' d' h g hgr hgname
      · rw [if_neg hm] at h
        cases horg : organize_file env f a n with
        | error e => rw [horg] at h; exact absurd h (by simp)
        | ok r =>
          rw [horg] at h
          rcases List.mem_cons.mp hg with rfl | hgr
          · exact processFiles_mono env rest _ _ _ _ _
              h' a' n' u' d' h _
              (List.mem_append_right _ (List.mem_singleton.mpr rfl))
          · exact ih _ _ _ _ _ h' a' n' u' d' h g hgr hgname

/-- A completed loop counts one unique or one duplicate per non-hidden
file: the counters add up to the non-hidden file count. -/
theorem processFiles_counts (env : Env) :
    ∀ (fs : List SrcFile) (hashes : List Digest) (a : Archive)
      (n u d : Nat) (h' : List Digest) (a' : Archive) (n' u' d' : Nat),
      processFiles env fs hashes a n u d = .ok (h', a', n', u', d') →
      u' + d' = u + d + countNonHidden fs := by
  intro fs
  induction fs with
  | nil =>
    intro hashes a n u d h' a' n' u' d' h
    simp only [processFiles, Except.ok.injEq, Prod.mk.injEq] at h
    simp [countNonHidden, ← h.2.2.2.1, ← h.2.2.2.2]
  | cons f rest ih =>
    intro hashes a n u d h' a' n' u' d' h
    simp only [processFiles] at h
    by_cases hh : startsWithDot f.name = true
    · rw [if_pos hh] at h
      have := ih hashes a n u d h' a' n' u' d' h
      simp only [countNonHidden, List.filter_cons, hh] at *
      simpa [countNonHidden] using this
    · rw [if_neg hh] at h
      have hcount : countNonHidden (f :: rest) = countNonHidden rest + 1 := by
        simp [countNonHidden, List.filter_cons,
              Bool.eq_false_iff.mpr hh]
      by_cases hm : hashes.contains (hash_file env f.content) = true
      · rw [if_pos hm] at h
        have := ih hashes a n u (d + 1) h' a' n' u' d' h
        rw [hcount]; omega
      · rw [if_neg hm] at h
        cases horg : organize_file env f a n with
        | error e => rw [horg] at h; exact absurd h (by simp)
        | ok r =>
          rw [horg] at h
          have := ih _ _ _ _ _ h' a' n' u' d' h
          rw [hcount]; omega

/-- When every non-hidden file's digest is already known, the loop places
nothing: the digest list, archive and uuid counter are unchanged and every
non-hidden file is counted as a duplicate. -/
theorem processFiles_allDupes (env : Env) :
    ∀ (fs : List SrcFile) (hashes : List Digest) (a : Archive) (n u d : Nat),
      (∀ g ∈ fs, startsWithDot g.name = false →
        hash_file env g.content ∈ hashes) →
      processFiles env fs hashes a n u d =
        .ok (hashes, a, n, u, d + countNonHidden fs) := by
  intro fs
  induction fs with
  | nil =>
    intro hashes a n u d _
    simp [processFiles, countNonHidden]
  | cons f rest ih =>
    intro hashes a n u d hall
    simp only [processFiles]
    by_cases hh : startsWithDot f.name = true
    · rw [if_pos hh]
      have : countNonHidden (f :: rest) = countNonHidden rest := by
        simp [countNonHidden, List.filter_cons, hh]
      rw [this]
      exact ih hashes a n u d (fun g hg => hall g (List.mem_cons_of_mem f hg))
    · rw [if_neg hh]
      have hmem : hash_file env f.content ∈ hashes :=
        hall f (List.mem_cons_self f rest) (Bool.eq_false_iff.mpr hh)
      have hm : hashes.contains (hash_file env f.content) = true := by
        simpa using hmem
      rw [if_pos hm]
      have hcount : countNonHidden (f :: rest) = countNonHidden rest + 1 := by
        simp [countNonHidden, List.filter_cons, Bool.eq_false_iff.mpr hh]
      rw [hcount, ih hashes a n u (d + 1)
        (fun g hg => hall g (List.mem_cons_of_mem f hg))]
      have : d + 1 + countNonHidden rest = d + (countNonHidden rest + 1) := by
        omega
      rw [this]

/-- A run, completed or aborted, never changes the source tree: the model
records the source as part of the state, and every operation the code
performs on a source path (`open(..., "rb")` in `hash_file` and
`get_exif_tags`, the read side of `shutil.copy`) is a read. -/
theorem organize_preserves_source (env : Env) (st : FState) :
    runSource (organize env st) = st.source := by
  unfold organize
  rcases st with ⟨src, arch, snap, ctr⟩
  cases snap with
  | corrupt => rfl
  | good l =>
    dsimp only
    cases processFiles env src l arch ctr 0 0 with
    | error e => rcases e with ⟨e, a2, n2⟩; rfl
    | ok r => rcases r with ⟨h2, a2, n2, u, d⟩; rfl
  | absent =>
    dsimp only
    cases processFiles env src
        (((find_duplicates env arch).1).map (fun p => p.1)) arch ctr 0 0 with
    | error e => rcases e with ⟨e, a2, n2⟩; rfl
    | ok r => rcases r with ⟨h2, a2, n2, u, d⟩; rfl

/-- Inversion of a completed run: the digest list came from the snapshot
or from the rebuild scan, the loop completed with the reported counters,
the final state persists the final digest list, and the reported total is
the non-hidden file count. -/
theorem organize_ok_inversion (env : Env) (st st' : FState) (s : RunStats)
    (hrun : organize env st = .ok (st', s)) :
    ∃ hashes hs2 a2 n2,
      (st.snapshot = .good hashes ∨
        (st.snapshot = .absent ∧
         hashes = ((find_duplicates env st.archive).1).map (fun p => p.1))) ∧
      processFiles env st.source hashes st.archive st.uuidCtr 0 0 =
        .ok (hs2, a2, n2, s.uniques, s.dupes) ∧
      st' = { st with archive := a2, snapshot := .good hs2,
                      uuidCtr := n2 } ∧
      s.total = countNonHidden st.source := by
  rcases st with ⟨src, arch, snap, ctr⟩
  unfold organize at hrun
  cases snap with
  | corrupt => exact absurd hrun (by simp)
  | good l =>
    dsimp only at hrun
    cases hp : processFiles env src l arch ctr 0 0 with
    | error e =>
      rcases e with ⟨e, a2, n2⟩
      rw [hp] at hrun
      exact absurd hrun (by simp)
    | ok r =>
      rcases r with ⟨hs2, a2, n2, u, d⟩
      rw [hp] at hrun
      simp only [Except.ok.injEq, Prod.mk.injEq] at hrun
      obtain ⟨h1, h2⟩ := hrun
      subst h1; subst h2
      exact ⟨l, hs2, a2, n2, Or.inl rfl, hp, rfl, rfl⟩
  | absent =>
    dsimp only at hrun
    cases hp : processFiles env src
        (((find_duplicates env arch).1).map (fun p => p.1)) arch ctr 0 0 with
    | error e =>
      rcases e with ⟨e, a2, n2⟩
      rw [hp] at hrun
      exact absurd hrun (by simp)
    | ok r =>
      rcases r with ⟨hs2, a2, n2, u, d⟩
      rw [hp] at hrun
      simp only [Except.ok.injEq, Prod.mk.injEq] at hrun
      obtain ⟨h1, h2⟩ := hrun
      subst h1; subst h2
      exact ⟨_, hs2, a2, n2, Or.inr ⟨rfl, rfl⟩, hp, rfl, rfl⟩

/-- Inversion of an aborted run: the on-disk snapshot and the source tree
are those the run started from (the snapshot is only rewritten after the
loop completes, and nothing ever writes to the source tree). -/
theorem organize_error_inversion (env : Env) (st : FState) (e : PyErr)
    (st' : FState) (hrun : organize env st = .error (e, st')) :
    st'.snapshot = st.snapshot ∧ st'.source = st.source := by
  rcases st with ⟨src, arch, snap, ctr⟩
  unfold organize at hrun
  cases snap with
  | corrupt =>
    simp only [Except.error.injEq, Prod.mk.injEq] at hrun
    obtain ⟨-, h2⟩ := hrun
    subst h2
    exact ⟨rfl, rfl⟩
  | good l =>
    dsimp only at hrun
    cases hp : processFiles env src l arch ctr 0 0 with
    | error r =>
      rcases r with ⟨e2, a2, n2⟩
      rw [hp] at hrun
      simp only [Except.error.injEq, Prod.mk.injEq] at hrun
      obtain ⟨-, h2⟩ := hrun
      subst h2
      exact ⟨rfl, rfl⟩
    | ok r =>
      rcases r with ⟨hs2, a2, n2, u, d⟩
      rw [hp] at hrun
      exact absurd hrun (by simp)
  | absent =>
    dsimp only at hrun
    cases hp : processFiles env src
        (((find_duplicates env arch).1).map (fun p => p.1)) arch ctr 0 0 with
    | error r =>
      rcases r with ⟨e2, a2, n2⟩
      rw [hp] at hrun
      simp only [Except.error.injEq, Prod.mk.injEq] at hrun
      obtain ⟨-, h2⟩ := hrun
      subst h2
      exact ⟨rfl, rfl⟩
    | ok r =>
      rcases r with ⟨hs2, a2, n2, u, d⟩
      rw [hp] at hrun
      exact absurd hrun (by simp)

/-! The claims. -/

/-- C10: a run never modifies, renames, or deletes anything under the
source tree — whether it completes or aborts, the source recorded in the
outcome is exactly the source it started from. Every access the code
makes to a source path is a read: `hash_file` and `get_exif_tags` open
with `open(path, "rb")`, and `shutil.copy` only reads its source
argument. -/
theorem organize_never_touches_source (env : Env) (st : FState) :
    runSource (organize env st) = st.source := by
  unfold organize runSource
  rcases st with ⟨src, arch, snap, ctr⟩
  cases snap with
  | corrupt => rfl
  | good l =>
    dsimp only
    cases processFiles env src l arch ctr 0 0 with
    | error e => rcases e with ⟨e, a2, n2⟩; rfl
    | ok r => rcases r with ⟨h2, a2, n2, u, d⟩; rfl
  | absent =>
    dsimp only
    cases processFiles env src
        (((find_duplicates env arch).1).map (fun p => p.1)) arch ctr 0 0 with
    | error e => rcases e with ⟨e, a2, n2⟩; rfl
    | ok r => rcases r with ⟨h2, a2, n2, u, d⟩; rfl

/-- C3: when a run aborts (in particular when `shutil.copy` raises
`IOError`), the persisted index is still the one the run started from, so
a fingerprint it did not already record — in particular the failing
file's — is not recorded as added. The in-memory `hashes.append` that
precedes the copy dies with the aborted process; the only durable index
write is the end-of-run pickle dump, which an abort never reaches. -/
theorem organize_copy_failure_no_index_record (env : Env) (st : FState)
    (e : PyErr) (st' : FState)
    (hrun : organize env st = .error (e, st')) :
    st'.snapshot = st.snapshot ∧
    ∀ dg : Digest, snapshotMem st.snapshot dg = false →
      snapshotMem st'.snapshot dg = false := by
  have h := organize_error_inversion env st e st' hrun
  exact ⟨h.1, fun dg hdg => h.1 ▸ hdg⟩

/-- C3 witness: a run whose only file fails to copy aborts with `IOError`
and leaves the (absent) snapshot unrecorded; the failing file's digest
`"h9"` is not in the persisted index. -/
theorem organize_copy_failure_no_index_record_witness :
    stFailW.snapshot = stFailW.snapshot ∧
    snapshotMem stFailW.snapshot "h9" = false :=
  ⟨(organize_copy_failure_no_index_record envW stFailW .ioError stFailW
      rfl).1,
   (organize_copy_failure_no_index_record envW stFailW .ioError stFailW
      rfl).2 "h9" (by decide)⟩

/-- C4 counterexample: with a snapshot file present but unparsable, the
run aborts with the unpickling error instead of falling back to the
rebuild scan — index corruption is fatal, refuting the claim. -/
theorem corrupt_index_is_fatal :
    organize envW ⟨[wTag], [], .corrupt, 0⟩ =
      .error (.unpicklingError, ⟨[wTag], [], .corrupt, 0⟩) := rfl

/-- C4 (amended): if the persisted snapshot exists but cannot be parsed,
`organize` raises the unpickling error before processing any file and the
state is unchanged; the rebuild scan runs only when no snapshot file
exists. -/
theorem corrupt_index_aborts_run (env : Env) (st : FState)
    (h : st.snapshot = .corrupt) :
    organize env st = .error (.unpicklingError, st) := by
  rcases st with ⟨src, arch, snap, ctr⟩
  dsimp only at h
  subst h
  rfl

/-- C4 witness: the amended behaviour on a concrete corrupt-snapshot
state. -/
theorem corrupt_index_aborts_run_witness :
    organize envW ⟨[], [], .corrupt, 3⟩ =
      .error (.unpicklingError, ⟨[], [], .corrupt, 3⟩) :=
  corrupt_index_aborts_run envW ⟨[], [], .corrupt, 3⟩ rfl

/-- C8: a run that completes without error counted every non-hidden
visited file as exactly one of unique or duplicate: the two counters sum
to the non-hidden file count, which is also the reported total. -/
theorem organize_counters_invariant (env : Env) (st st' : FState)
    (s : RunStats) (hrun : organize env st = .ok (st', s)) :
    s.uniques + s.dupes = countNonHidden st.source ∧
    s.total = countNonHidden st.source := by
  obtain ⟨hashes, hs2, a2, n2, -, hp, -, htot⟩ :=
    organize_ok_inversion env st st' s hrun
  have hc := processFiles_counts env st.source hashes st.archive st.uuidCtr
    0 0 hs2 a2 n2 s.uniques s.dupes hp
  omega

/-- C8 witness: a run over a tagged photo, a hidden file and a duplicate
counts 1 unique + 1 duplicate = 2 non-hidden files. -/
theorem organize_counters_invariant_witness :
    (1 : Nat) + 1 = countNonHidden [wTag, wHiddenName, wDup] ∧
    (2 : Nat) = countNonHidden [wTag, wHiddenName, wDup] := by
  have h := organize_counters_invariant envW
    ⟨[wTag, wHiddenName, wDup], [], .absent, 0⟩
    ⟨[wTag, wHiddenName, wDup],
     [(["2021", "06", "15", "2021-06-15 10.30.00.jpg"], [1, 2, 3])],
     .good ["h132873"], 0⟩
    ⟨1, 1, 2⟩ rfl
  exact h

/-- C5 counterexample: a file with no extractable date tag is placed
under the directory `no_EXIF`, not under `no_metadata` as claimed: on a
fresh archive the placed entry's directory component is `"no_EXIF"`,
which differs from `"no_metadata"`. -/
theorem no_tag_dir_is_no_EXIF_not_no_metadata :
    organize_file envW wNoTag [] 0 =
      .ok ([(["no_EXIF", "photo.jpg"], [5])], 0) ∧
    "no_EXIF" ≠ "no_metadata" :=
  ⟨rfl, by decide⟩

/-- C5 (amended): for every source file with no extractable capture-date
tag (and no name collision at the destination, and a copy that
completes), the destination is `archive_root/no_EXIF/<original basename>`
and the original basename — including extension case — is preserved
exactly. -/
theorem no_tag_dest_preserves_basename (env : Env) (f : SrcFile)
    (a : Archive) (n : Nat)
    (hno : lookupTag f.tags exif_date_tag = none)
    (hcol : existsAt a ["no_EXIF", f.name] = false)
    (hcp : f.copyOk = true) :
    organize_file env f a n =
      .ok ((["no_EXIF", f.name], f.content) :: a, n) := by
  unfold organize_file dest_for
  rw [hno]
  dsimp only
  simp only [List.cons_append, List.nil_append, hcol, hcp,
    Bool.false_eq_true, if_false, if_true]

/-- C5 witness: the amended placement at a concrete untagged file over a
nonempty archive. -/
theorem no_tag_dest_preserves_basename_witness :
    organize_file envW wNoTag [(["2021", "06", "15", "x.jpg"], [9, 9])] 5 =
      .ok ((["no_EXIF", "photo.jpg"], [5]) ::
             [(["2021", "06", "15", "x.jpg"], [9, 9])], 5) :=
  no_tag_dest_preserves_basename envW wNoTag
    [(["2021", "06", "15", "x.jpg"], [9, 9])] 5 rfl rfl rfl

/-- C6 (code bug, flagged by the spec itself): a present but unparsable
`EXIF DateTimeOriginal` tag makes `datetime.strptime` raise `ValueError`,
which nothing catches: the whole run aborts instead of treating the file
as having no timestamp and placing it under the fallback directory. -/
theorem unparsable_tag_aborts_run :
    organize envW ⟨[wBad], [], .absent, 0⟩ =
      .error (.valueError, ⟨[wBad], [], .absent, 0⟩) := rfl

/-- C7: for every source file whose recognized date tag parses to a
timestamp, the computed destination is
`archive_root/YYYY/MM/DD/<"%Y-%m-%d %H.%M.%S"-formatted timestamp><ext
lowercased>` (collision-free destination and completing copy assumed; the
year bound pins down `%Y`'s zero-padding, which CPython leaves to the
platform below year 1000). -/
theorem parsed_tag_dest (env : Env) (f : SrcFile) (a : Archive) (n : Nat)
    (s : String) (dt : PyDateTime)
    (htag : lookupTag f.tags exif_date_tag = some s)
    (hparse : strptime_exif s = some dt)
    (_hyear : 1000 ≤ dt.year)
    (hcol : existsAt a [pad4 dt.year, pad2 dt.month, pad2 dt.day,
              strftime_filename dt ++ lowerStr (splitext f.name).2] = false)
    (hcp : f.copyOk = true) :
    organize_file env f a n =
      .ok (([pad4 dt.year, pad2 dt.month, pad2 dt.day,
             strftime_filename dt ++ lowerStr (splitext f.name).2],
            f.content) :: a, n) := by
  unfold organize_file dest_for
  rw [htag]
  dsimp only
  rw [hparse]
  dsimp only
  simp only [List.cons_append, List.nil_append, hcol, hcp,
    Bool.false_eq_true, if_false, if_true]

/-- C7 witness: the tag value `"2021:06:15 10:30:00"` on `photo.JPG`
lands at `2021/06/15/2021-06-15 10.30.00.jpg` (extension lowercased). -/
theorem parsed_tag_dest_witness :
    organize_file envW wTag [] 0 =
      .ok ([(["2021", "06", "15", "2021-06-15 10.30.00.jpg"],
            [1, 2, 3])], 0) := by
  have h := parsed_tag_dest envW wTag [] 0 "2021:06:15 10:30:00"
    ⟨2021, 6, 15, 10, 30, 0⟩ rfl (by decide) (by decide) rfl rfl
  exact h

/-- C1: organizing a fresh archive from a source tree holding two files
with byte-identical content places exactly one archive entry with that
content; the run counts one unique and one duplicate. The second file's
digest equals the first's, so the membership test routes it to the
duplicate branch and no second copy happens. -/
theorem organize_identical_pair_one_copy (env : Env) (g1 g2 : SrcFile)
    (n : Nat) (st' : FState) (s : RunStats)
    (hc : g1.content = g2.content)
    (h1 : startsWithDot g1.name = false)
    (h2 : startsWithDot g2.name = false)
    (hrun : organize env ⟨[g1, g2], [], .absent, n⟩ = .ok (st', s)) :
    s.uniques = 1 ∧ s.dupes = 1 ∧
    st'.archive.countP (fun e => e.2 == g1.content) = 1 := by
  unfold organize at hrun
  dsimp only at hrun
  simp only [find_duplicates, List.foldl_nil, List.map_nil] at hrun
  cases horg : organize_file env g1 [] n with
  | error e =>
    have hpf : processFiles env [g1, g2] [] [] n 0 0 = .error (e, [], n) := by
      simp [processFiles, h1, hash_file, horg]
    rw [hpf] at hrun
    exact absurd hrun (by simp)
  | ok r =>
    rcases r with ⟨a2, n2⟩
    have hpf : processFiles env [g1, g2] [] [] n 0 0 =
        .ok ([env.sha1 g1.content], a2, n2, 1, 1) := by
      simp [processFiles, h1, h2, hash_file, horg, ← hc]
    rw [hpf] at hrun
    dsimp only at hrun
    simp only [Except.ok.injEq, Prod.mk.injEq] at hrun
    obtain ⟨hst, hs⟩ := hrun
    subst hst; subst hs
    obtain ⟨p, hp⟩ := organize_file_ok_shape env g1 [] n a2 n2 horg
    subst hp
    refine ⟨rfl, rfl, ?_⟩
    simp [List.countP_cons]

/-- C1 witness: the tagged photo and its byte-identical duplicate yield
one unique, one duplicate, and a single archive entry with the shared
bytes. -/
theorem organize_identical_pair_one_copy_witness :
    (⟨1, 1, 2⟩ : RunStats).uniques = 1 ∧
    (⟨1, 1, 2⟩ : RunStats).dupes = 1 ∧
    List.countP (fun e => e.2 == wTag.content)
      (FState.archive st1W) = 1 := by
  have h := organize_identical_pair_one_copy envW wTag wDup 0 st1W
    ⟨1, 1, 2⟩ rfl rfl rfl rfl
  exact h

/-- C2: a second run over the same source tree against the archive and
snapshot a completed first run left behind places nothing new: it
completes with zero uniques, every non-hidden file counted as a
duplicate, and the archive unchanged. The first run persisted every
processed file's digest, so the second run's membership test hits for
every file. -/
theorem organize_second_run_idempotent (env : Env) (st st1 : FState)
    (s1 : RunStats) (hrun : organize env st = .ok (st1, s1)) :
    ∃ st2, organize env st1 =
        .ok (st2, ⟨0, countNonHidden st.source, countNonHidden st.source⟩) ∧
      st2.archive = st1.archive := by
  obtain ⟨hashes, hs2, a2, n2, -, hp, hst1, -⟩ :=
    organize_ok_inversion env st st1 s1 hrun
  have hall : ∀ g ∈ st.source, startsWithDot g.name = false →
      hash_file env g.content ∈ hs2 :=
    processFiles_covers env st.source hashes st.archive st.uuidCtr 0 0
      hs2 a2 n2 s1.uniques s1.dupes hp
  have hdup := processFiles_allDupes env st.source hs2 a2 n2 0 0 hall
  subst hst1
  refine ⟨{ st with archive := a2, snapshot := .good hs2, uuidCtr := n2 },
    ?_, rfl⟩
  unfold organize
  dsimp only
  rw [hdup]
  dsimp only
  rw [Nat.zero_add]

/-- C2 witness: re-running on the state the first run over
`[wTag, wDup]` left behind yields zero uniques and two duplicates. -/
theorem organize_second_run_idempotent_witness :
    ∃ st2, organize envW st1W = .ok (st2, ⟨0, 2, 2⟩) ∧
      st2.archive = st1W.archive := by
  have h := organize_second_run_idempotent envW
    ⟨[wTag, wDup], [], .absent, 0⟩ st1W ⟨1, 1, 2⟩ rfl
  exact h

/-- C9: the hidden-file exclusion tests only the file's basename, never
its directory: a file with a non-hidden name inside a dot-directory is
still counted in the total, hashed, and organized into the archive. -/
theorem hidden_dir_files_still_organized (env : Env) (f : SrcFile)
    (n : Nat) (c : String) (st' : FState) (s : RunStats)
    (_hdir : c ∈ f.dir) (_hdot : startsWithDot c = true)
    (hname : startsWithDot f.name = false)
    (hrun : organize env ⟨[f], [], .absent, n⟩ = .ok (st', s)) :
    s.uniques = 1 ∧ s.total = 1 ∧
    st'.archive.countP (fun e => e.2 == f.content) = 1 := by
  unfold organize at hrun
  dsimp only at hrun
  simp only [find_duplicates, List.foldl_nil, List.map_nil] at hrun
  cases horg : organize_file env f [] n with
  | error e =>
    have hpf : processFiles env [f] [] [] n 0 0 = .error (e, [], n) := by
      simp [processFiles, hname, hash_file, horg]
    rw [hpf] at hrun
    exact absurd hrun (by simp)
  | ok r =>
    rcases r with ⟨a2, n2⟩
    have hpf : processFiles env [f] [] [] n 0 0 =
        .ok ([env.sha1 f.content], a2, n2, 1, 0) := by
      simp [processFiles, hname, hash_file, horg]
    rw [hpf] at hrun
    dsimp only at hrun
    simp only [Except.ok.injEq, Prod.mk.injEq] at hrun
    obtain ⟨hst, hs⟩ := hrun
    subst hst; subst hs
    obtain ⟨p, hp⟩ := organize_file_ok_shape env f [] n a2 n2 horg
    subst hp
    refine ⟨rfl, ?_, ?_⟩
    · simp [countNonHidden, hname]
    · simp [List.countP_cons]

/-- C9 witness: the non-hidden photo inside `.hidden/` is organized. -/
theorem hidden_dir_files_still_organized_witness :
    (⟨1, 0, 1⟩ : RunStats).uniques = 1 ∧
    (⟨1, 0, 1⟩ : RunStats).total = 1 ∧
    List.countP (fun e => e.2 == wHidden.content)
      (FState.archive ⟨[wHidden], [(["no_EXIF", "a.jpg"], [7])],
        .good ["h8"], 0⟩) = 1 := by
  have h := hidden_dir_files_still_organized envW wHidden 0 ".hidden"
    ⟨[wHidden], [(["no_EXIF", "a.jpg"], [7])], .good ["h8"], 0⟩
    ⟨1, 0, 1⟩ (by decide) rfl rfl rfl
  exact h
